import Mathlib

/-
  Verification development for the WalkPIPIoT firmware core
  (src/src/main.cpp).

  Shallow embedding conventions:
  - Machine integers: int32_t sensor intensities are modelled as Int,
    unsigned long millisecond clocks as Nat.  Subtraction of clock values
    is Nat truncated subtraction, which coincides with the 32-bit
    unsigned arithmetic of the source whenever the minuend is at least
    the subtrahend; this holds on every execution because millis() is
    non-decreasing and every stored timestamp was a previous value of it.
  - C float values (spO2, accelerations, smoothing constants) are
    modelled as exact rationals; the float literals 9.8, 0.5, 0.2 and
    98.0 of the source are written 49/5, 1/2, 1/5 and 98.
  - The quantities held in beatArray, beatSamples and heartRate are
    always non-negative in the source (they are produced by divisions of
    non-negative quantities), so they are modelled as Nat; the C integer
    division on them agrees with Nat division.
  - The source derives accelMagnitude = sqrt(x*x + y*y + z*z) from the
    inertial axes; the square root is irrational-valued, so the
    magnitude is supplied directly as the input field accelMagnitude.
    No claim depends on the value of the square root itself.
  - Serial printing, LED writes and delays are input and output effects
    with no influence on the retained state and are not modelled.
    Fields of sensorData that are pure telemetry (accelX, accelY,
    accelZ, temperature, irValue, redValue as stored copies) are
    omitted; the current sample values are passed directly instead.
-/

/-- One tick of external input: the optical sample returned by
particleSensor.getIR and getRed, the inertial magnitude and whether
mpu.getEvent succeeded, and the value of millis() at this tick. -/
structure SensorInput where
  irValue : Int
  redValue : Int
  accelMagnitude : ℚ
  mpuOk : Bool
  now : Nat
deriving Repr

/-- All mutable state the firmware retains across loop() iterations:
the sensorData fields that persist, the file-scope globals and the
function-static variables of loop(). -/
structure CoreState where
  spO2 : ℚ
  heartRate : Nat
  fingerDetected : Bool
  stepCount : Int
  lastBeatTime : Nat
  beatArray : Fin 5 → Nat
  beatIndex : Fin 5
  beatSamples : Nat
  lastStepTime : Nat
  lastAcceleration : ℚ
  stepCounter : Int
  isMoving : Bool
  lastFingerState : Bool
  fingerStateTime : Nat
  lastIR : Int
  lastLastIR : Int
  wasRising : Bool

/-- State at startup: C++ zero-initialised globals and the declared
initialisers (lastAcceleration = 9.8). -/
def initState : CoreState where
  spO2 := 0
  heartRate := 0
  fingerDetected := false
  stepCount := 0
  lastBeatTime := 0
  beatArray := fun _ => 0
  beatIndex := 0
  beatSamples := 0
  lastStepTime := 0
  lastAcceleration := 49/5
  stepCounter := 0
  isMoving := false
  lastFingerState := false
  fingerStateTime := 0
  lastIR := 0
  lastLastIR := 0
  wasRising := false

/-- calculateSpO2 (main.cpp lines 125-143): intensity floors, the
linear approximation 104 - 17*(red/ir), then the two sequential
clamps (below 70 becomes the 0 sentinel, above 100 becomes 100). -/
def calculateSpO2 (ir red : Int) : ℚ :=
  if ir < 20000 ∨ red < 5000 then 0
  else
    let r : ℚ := (red : ℚ) / (ir : ℚ)
    let v : ℚ := 104 - 17 * r
    let v1 : ℚ := if v < 70 then 0 else v
    if 100 < v1 then 100 else v1

/-- detectStep (main.cpp lines 148-170): step registered when the
magnitude change exceeds STEP_THRESHOLD = 0.5 and more than
STEP_COOLDOWN = 300 ms have elapsed; lastAcceleration is updated
unconditionally afterwards. -/
def detectStep (s : CoreState) (currentAccel : ℚ) (currentTime : Nat) : CoreState :=
  let accelChange : ℚ := |currentAccel - s.lastAcceleration|
  if 1/2 < accelChange ∧ 300 < currentTime - s.lastStepTime then
    { s with stepCounter := s.stepCounter + 1
             lastStepTime := currentTime
             lastAcceleration := currentAccel }
  else
    { s with lastAcceleration := currentAccel }

/-- Finger presence hysteresis block of loop() (main.cpp lines
254-285): raw presence is irValue > 30000; if it differs from
lastFingerState for more than 100 ms since fingerStateTime, commit it;
if it equals lastFingerState, reset fingerStateTime to now. -/
def presenceUpdate (s : CoreState) (ir : Int) (now : Nat) : CoreState :=
  let currentFingerDetected : Bool := decide (30000 < ir)
  if currentFingerDetected ≠ s.lastFingerState then
    if 100 < now - s.fingerStateTime then
      { s with fingerDetected := currentFingerDetected
               lastFingerState := currentFingerDetected
               fingerStateTime := now }
    else s
  else
    { s with fingerStateTime := now }

/-- Sum of the first n slots of the beat buffer, as the C++ loop
for i in [0, beatSamples) does.  The index is reduced mod 5 to make
the function total; at every use site n is at most 5, where the mod
is the identity. -/
def sumBeats (a : Fin 5 → Nat) : Nat → Nat
  | 0 => 0
  | n + 1 => sumBeats a n + a ⟨n % 5, Nat.mod_lt n (by norm_num)⟩

/-- Beat detection block of loop() (main.cpp lines 289-344), executed
when fingerDetected holds: delta sign analysis with the |delta| > 80
noise floor, the rising flag, and on a falling edge while rising the
interval test and circular-buffer insertion.  lastBeatTime is updated
only inside the outer (interval > 300) test. -/
def beatUpdate (s : CoreState) (ir : Int) (now : Nat) : CoreState :=
  let delta : Int := ir - s.lastIR
  let lastDelta : Int := s.lastIR - s.lastLastIR
  let s1 :=
    if 80 < |delta| then
      let w1 : Bool :=
        if 0 < delta ∧ lastDelta ≤ 0 ∧ s.wasRising = false then true else s.wasRising
      if delta < 0 ∧ 0 ≤ lastDelta ∧ w1 = true then
        if 300 < now - s.lastBeatTime then
          let beatInterval : Nat := now - s.lastBeatTime
          let s3 :=
            if 300 < beatInterval ∧ beatInterval < 1500 then
              let bpm : Nat := 60000 / beatInterval
              let arr : Fin 5 → Nat := Function.update s.beatArray s.beatIndex bpm
              let samples : Nat := min (s.beatSamples + 1) 5
              { s with wasRising := false
                       beatArray := arr
                       beatIndex := s.beatIndex + 1
                       beatSamples := samples
                       heartRate := sumBeats arr samples / samples }
            else { s with wasRising := false }
          { s3 with lastBeatTime := now }
        else { s with wasRising := false }
      else { s with wasRising := w1 }
    else s
  { s1 with lastLastIR := s.lastIR, lastIR := ir }

/-- SpO2 block of loop() (main.cpp lines 347-353): compute
calculateSpO2 and, if it returned the 0 sentinel while irValue
exceeds 50000, substitute the fixed default 98.0. -/
def spO2Update (s : CoreState) (ir red : Int) : CoreState :=
  let v : ℚ := calculateSpO2 ir red
  let v2 : ℚ := if v = 0 ∧ 50000 < ir then 98 else v
  { s with spO2 := v2 }

/-- No-finger branch of loop() (main.cpp lines 356-370): zero the
outputs and clear the beat buffer.  The peak-tracker statics lastIR,
lastLastIR, wasRising and the timestamp lastBeatTime are not touched
by this branch in the source. -/
def clearNoFinger (s : CoreState) : CoreState :=
  { s with heartRate := 0
           spO2 := 0
           beatArray := fun _ => 0
           beatIndex := 0
           beatSamples := 0 }

/-- Inertial block of loop() (main.cpp lines 375-404): on a
successful mpu.getEvent run detectStep on the magnitude, publish the
step counter and recompute isMoving; on failure keep defaults and set
isMoving to false. -/
def mpuUpdate (s : CoreState) (i : SensorInput) : CoreState :=
  if i.mpuOk then
    let s1 := detectStep s i.accelMagnitude i.now
    { s1 with stepCount := s1.stepCounter
              isMoving := decide ((1 : ℚ)/5 < |i.accelMagnitude - 49/5|) }
  else
    { s with isMoving := false }

/-- One full iteration of loop() (main.cpp lines 238-440) restricted
to state-relevant work: presence hysteresis, then either the beat and
SpO2 blocks (finger present) or the clearing branch, then the
inertial block. -/
def loopStep (s : CoreState) (i : SensorInput) : CoreState :=
  let s1 := presenceUpdate s i.irValue i.now
  let s2 :=
    if s1.fingerDetected then
      spO2Update (beatUpdate s1 i.irValue i.now) i.irValue i.redValue
    else clearNoFinger s1
  mpuUpdate s2 i

/-- Iterated loop() over a list of tick inputs. -/
def runLoop (s : CoreState) (l : List SensorInput) : CoreState :=
  l.foldl loopStep s

/-- Iterated presence detector alone, over (irValue, millis) pairs,
matching the contract update(infrared, now) of the spec. -/
def runPresence (s : CoreState) (l : List (Int × Nat)) : CoreState :=
  l.foldl (fun t p => presenceUpdate t p.1 p.2) s

/-- Range lemma for calculateSpO2: the result is the 0 sentinel or
lies in the closed interval [70, 100]. -/
theorem calculateSpO2_range (ir red : Int) :
    calculateSpO2 ir red = 0 ∨
      (70 ≤ calculateSpO2 ir red ∧ calculateSpO2 ir red ≤ 100) := by
  unfold calculateSpO2
  split
  · exact Or.inl rfl
  · set v : ℚ := 104 - 17 * ((red : ℚ) / (ir : ℚ)) with hv
    by_cases h70 : v < 70
    · simp only [if_pos h70]
      norm_num
    · simp only [if_neg h70]
      by_cases h100 : (100 : ℚ) < v
      · simp only [if_pos h100]
        norm_num
      · simp only [if_neg h100]
        exact Or.inr ⟨le_of_not_lt h70, le_of_not_lt h100⟩

/-- The result of an accepted beat: the insertion into the circular
buffer, the average recomputation and the lastBeatTime advance. -/
def acceptBeat (s : CoreState) (ir : Int) (now : Nat) : CoreState :=
  let beatInterval : Nat := now - s.lastBeatTime
  let bpm : Nat := 60000 / beatInterval
  let arr : Fin 5 → Nat := Function.update s.beatArray s.beatIndex bpm
  let samples : Nat := min (s.beatSamples + 1) 5
  { s with wasRising := false
           beatArray := arr
           beatIndex := s.beatIndex + 1
           beatSamples := samples
           heartRate := sumBeats arr samples / samples
           lastBeatTime := now
           lastLastIR := s.lastIR
           lastIR := ir }

theorem presenceUpdate_cases (s : CoreState) (ir : Int) (now : Nat) :
    presenceUpdate s ir now = { s with fingerStateTime := now } ∨
    presenceUpdate s ir now = s ∨
    presenceUpdate s ir now =
      { s with fingerDetected := decide (30000 < ir)
               lastFingerState := decide (30000 < ir)
               fingerStateTime := now } := by
  simp only [presenceUpdate]
  by_cases h1 : (decide (30000 < ir)) ≠ s.lastFingerState
  · by_cases h2 : 100 < now - s.fingerStateTime
    · rw [if_pos h1, if_pos h2]
      exact Or.inr (Or.inr rfl)
    · rw [if_pos h1, if_neg h2]
      exact Or.inr (Or.inl rfl)
  · rw [if_neg h1]
    exact Or.inl rfl

theorem beatUpdate_cases (s : CoreState) (ir : Int) (now : Nat) :
    (∃ w, beatUpdate s ir now =
        { s with wasRising := w, lastLastIR := s.lastIR, lastIR := ir }) ∨
    beatUpdate s ir now =
        { s with wasRising := false, lastBeatTime := now
                 lastLastIR := s.lastIR, lastIR := ir } ∨
    ((300 < now - s.lastBeatTime ∧ now - s.lastBeatTime < 1500) ∧
      beatUpdate s ir now = acceptBeat s ir now) := by
  simp only [beatUpdate, acceptBeat]
  by_cases hnoise : 80 < |ir - s.lastIR|
  · rw [if_pos hnoise]
    by_cases hedge : ir - s.lastIR < 0 ∧ 0 ≤ s.lastIR - s.lastLastIR ∧
        (if 0 < ir - s.lastIR ∧ s.lastIR - s.lastLastIR ≤ 0 ∧ s.wasRising = false then true
         else s.wasRising) = true
    · rw [if_pos hedge]
      by_cases houter : 300 < now - s.lastBeatTime
      · rw [if_pos houter]
        by_cases hin : 300 < now - s.lastBeatTime ∧ now - s.lastBeatTime < 1500
        · rw [if_pos hin]
          exact Or.inr (Or.inr ⟨hin, rfl⟩)
        · rw [if_neg hin]
          exact Or.inr (Or.inl rfl)
      · rw [if_neg houter]
        exact Or.inl ⟨false, rfl⟩
    · rw [if_neg hedge]
      exact Or.inl ⟨_, rfl⟩
  · rw [if_neg hnoise]
    exact Or.inl ⟨s.wasRising, rfl⟩

theorem mpuUpdate_preserves (s : CoreState) (i : SensorInput) :
    (mpuUpdate s i).spO2 = s.spO2 ∧
    (mpuUpdate s i).heartRate = s.heartRate ∧
    (mpuUpdate s i).fingerDetected = s.fingerDetected ∧
    (mpuUpdate s i).lastBeatTime = s.lastBeatTime ∧
    (mpuUpdate s i).beatArray = s.beatArray ∧
    (mpuUpdate s i).beatIndex = s.beatIndex ∧
    (mpuUpdate s i).beatSamples = s.beatSamples ∧
    (mpuUpdate s i).lastFingerState = s.lastFingerState ∧
    (mpuUpdate s i).fingerStateTime = s.fingerStateTime := by
  simp only [mpuUpdate, detectStep]
  split
  · split <;> exact ⟨rfl, rfl, rfl, rfl, rfl, rfl, rfl, rfl, rfl⟩
  · exact ⟨rfl, rfl, rfl, rfl, rfl, rfl, rfl, rfl, rfl⟩

theorem spO2Update_preserves (s : CoreState) (ir red : Int) :
    (spO2Update s ir red).heartRate = s.heartRate ∧
    (spO2Update s ir red).fingerDetected = s.fingerDetected ∧
    (spO2Update s ir red).lastBeatTime = s.lastBeatTime ∧
    (spO2Update s ir red).beatArray = s.beatArray ∧
    (spO2Update s ir red).beatIndex = s.beatIndex ∧
    (spO2Update s ir red).beatSamples = s.beatSamples :=
  ⟨rfl, rfl, rfl, rfl, rfl, rfl⟩

theorem spO2Update_spO2 (s : CoreState) (ir red : Int) :
    (spO2Update s ir red).spO2 =
      if calculateSpO2 ir red = 0 ∧ 50000 < ir then 98 else calculateSpO2 ir red := rfl

/-- Claim C4: every tick emits an SpO2 that is either the 0 sentinel
or a value in the closed interval [70, 100]; a value outside that
interval is never emitted as valid. -/
theorem c4_spo2_clamp (s : CoreState) (i : SensorInput) :
    (loopStep s i).spO2 = 0 ∨
      (70 ≤ (loopStep s i).spO2 ∧ (loopStep s i).spO2 ≤ 100) := by
  simp only [loopStep]
  rw [(mpuUpdate_preserves _ _).1]
  split
  · rw [spO2Update_spO2]
    split
    · exact Or.inr (by norm_num)
    · exact calculateSpO2_range _ _
  · exact Or.inl rfl

theorem presenceUpdate_preserves (s : CoreState) (ir : Int) (now : Nat) :
    (presenceUpdate s ir now).lastIR = s.lastIR ∧
    (presenceUpdate s ir now).lastLastIR = s.lastLastIR ∧
    (presenceUpdate s ir now).wasRising = s.wasRising ∧
    (presenceUpdate s ir now).lastBeatTime = s.lastBeatTime ∧
    (presenceUpdate s ir now).beatArray = s.beatArray ∧
    (presenceUpdate s ir now).beatIndex = s.beatIndex ∧
    (presenceUpdate s ir now).beatSamples = s.beatSamples ∧
    (presenceUpdate s ir now).heartRate = s.heartRate ∧
    (presenceUpdate s ir now).spO2 = s.spO2 ∧
    (presenceUpdate s ir now).stepCounter = s.stepCounter ∧
    (presenceUpdate s ir now).stepCount = s.stepCount := by
  rcases presenceUpdate_cases s ir now with h | h | h <;> rw [h] <;>
    exact ⟨rfl, rfl, rfl, rfl, rfl, rfl, rfl, rfl, rfl, rfl, rfl⟩

theorem beatUpdate_preserves (s : CoreState) (ir : Int) (now : Nat) :
    (beatUpdate s ir now).fingerDetected = s.fingerDetected ∧
    (beatUpdate s ir now).lastFingerState = s.lastFingerState ∧
    (beatUpdate s ir now).fingerStateTime = s.fingerStateTime ∧
    (beatUpdate s ir now).stepCounter = s.stepCounter ∧
    (beatUpdate s ir now).stepCount = s.stepCount ∧
    (beatUpdate s ir now).spO2 = s.spO2 := by
  rcases beatUpdate_cases s ir now with ⟨w, h⟩ | h | ⟨-, h⟩ <;> rw [h] <;>
    exact ⟨rfl, rfl, rfl, rfl, rfl, rfl⟩

theorem clearNoFinger_fields (s : CoreState) :
    (clearNoFinger s).heartRate = 0 ∧
    (clearNoFinger s).spO2 = 0 ∧
    (clearNoFinger s).beatSamples = 0 ∧
    (clearNoFinger s).beatArray = (fun _ => 0) ∧
    (clearNoFinger s).fingerDetected = s.fingerDetected ∧
    (clearNoFinger s).lastBeatTime = s.lastBeatTime ∧
    (clearNoFinger s).stepCounter = s.stepCounter ∧
    (clearNoFinger s).stepCount = s.stepCount :=
  ⟨rfl, rfl, rfl, rfl, rfl, rfl, rfl, rfl⟩

theorem loopStep_finger (s : CoreState) (i : SensorInput)
    (hp : (presenceUpdate s i.irValue i.now).fingerDetected = true) :
    loopStep s i =
      mpuUpdate
        (spO2Update (beatUpdate (presenceUpdate s i.irValue i.now) i.irValue i.now)
          i.irValue i.redValue) i := by
  simp only [loopStep]
  rw [if_pos hp]

theorem loopStep_nofinger (s : CoreState) (i : SensorInput)
    (hp : (presenceUpdate s i.irValue i.now).fingerDetected = false) :
    loopStep s i = mpuUpdate (clearNoFinger (presenceUpdate s i.irValue i.now)) i := by
  simp only [loopStep]
  rw [if_neg (by simp [hp])]

theorem loopStep_fingerDetected (s : CoreState) (i : SensorInput) :
    (loopStep s i).fingerDetected = (presenceUpdate s i.irValue i.now).fingerDetected := by
  by_cases hp : (presenceUpdate s i.irValue i.now).fingerDetected = true
  · rw [loopStep_finger s i hp, (mpuUpdate_preserves _ _).2.2.1,
      (spO2Update_preserves _ _ _).2.1, (beatUpdate_preserves _ _ _).1]
  · rw [loopStep_nofinger s i (Bool.not_eq_true _ ▸ hp),
      (mpuUpdate_preserves _ _).2.2.1, (clearNoFinger_fields _).2.2.2.2.1]

/-- The SpO2 a finger-present tick emits, in terms of calculateSpO2
and the 50000 override. -/
theorem loopStep_spO2_finger (s : CoreState) (i : SensorInput)
    (hp : (presenceUpdate s i.irValue i.now).fingerDetected = true) :
    (loopStep s i).spO2 =
      if calculateSpO2 i.irValue i.redValue = 0 ∧ 50000 < i.irValue then 98
      else calculateSpO2 i.irValue i.redValue := by
  rw [loopStep_finger s i hp, (mpuUpdate_preserves _ _).1, spO2Update_spO2]

/-- When the unclamped linear value is below 70, calculateSpO2
returns the 0 sentinel. -/
theorem calculateSpO2_low (ir red : Int)
    (h : 104 - 17 * ((red : ℚ) / (ir : ℚ)) < 70) :
    calculateSpO2 ir red = 0 := by
  simp only [calculateSpO2]
  by_cases hfl : ir < 20000 ∨ red < 5000
  · rw [if_pos hfl]
  · rw [if_neg hfl, if_pos h]
    norm_num

/-- Claim C10: when committed presence is true, the infrared value
exceeds 50000 and calculateSpO2 returned the 0 sentinel, the tick
emits the fixed default 98 instead of the sentinel. -/
theorem c10_default_spo2 (s : CoreState) (i : SensorInput)
    (hp : (presenceUpdate s i.irValue i.now).fingerDetected = true)
    (hir : 50000 < i.irValue)
    (h0 : calculateSpO2 i.irValue i.redValue = 0) :
    (loopStep s i).spO2 = 98 := by
  rw [loopStep_spO2_finger s i hp, if_pos ⟨h0, hir⟩]

def sC10 : CoreState :=
  { initState with fingerDetected := true, lastFingerState := true, lastIR := 60000 }

def iC10 : SensorInput :=
  { irValue := 60000, redValue := 0, accelMagnitude := 0, mpuOk := false, now := 0 }

theorem c10_witness : (loopStep sC10 iC10).spO2 = 98 :=
  c10_default_spo2 sC10 iC10 (by decide) (by decide) (by decide)

/-- Claim C2, amended: when presence is committed and the linear
approximation falls below 70, calculateSpO2 returns the 0 sentinel,
and the tick emits that sentinel unless the infrared value exceeds
50000, in which case it emits the fixed default 98 instead. -/
theorem c2_low_value_sentinel (s : CoreState) (i : SensorInput)
    (hp : (presenceUpdate s i.irValue i.now).fingerDetected = true)
    (hlow : 104 - 17 * ((i.redValue : ℚ) / (i.irValue : ℚ)) < 70) :
    calculateSpO2 i.irValue i.redValue = 0 ∧
    (loopStep s i).spO2 = if 50000 < i.irValue then 98 else 0 := by
  have h0 := calculateSpO2_low _ _ hlow
  refine ⟨h0, ?_⟩
  rw [loopStep_spO2_finger s i hp]
  by_cases hir : 50000 < i.irValue
  · rw [if_pos ⟨h0, hir⟩, if_pos hir]
  · rw [if_neg (fun hc => hir hc.2), if_neg hir, h0]

def sC2 : CoreState :=
  { initState with fingerDetected := true, lastFingerState := true, lastIR := 60000 }

def iC2 : SensorInput :=
  { irValue := 60000, redValue := 130000, accelMagnitude := 0, mpuOk := false, now := 0 }

/-- Claim C2 as stated is false on the code: with presence committed,
infrared 60000 and red 130000, the linear approximation is below 70,
yet the tick emits the numeric value 98, not the 0 sentinel, because
of the irValue > 50000 default substitution. -/
theorem c2_counterexample :
    104 - 17 * (((130000 : Int) : ℚ) / ((60000 : Int) : ℚ)) < 70 ∧
    (presenceUpdate sC2 iC2.irValue iC2.now).fingerDetected = true ∧
    (loopStep sC2 iC2).spO2 = 98 ∧ (loopStep sC2 iC2).spO2 ≠ 0 := by
  have hlow : 104 - 17 * (((130000 : Int) : ℚ) / ((60000 : Int) : ℚ)) < 70 := by
    norm_num
  have hp : (presenceUpdate sC2 iC2.irValue iC2.now).fingerDetected = true := by decide
  have h0 : calculateSpO2 iC2.irValue iC2.redValue = 0 := calculateSpO2_low _ _ hlow
  have h98 : (loopStep sC2 iC2).spO2 = 98 := by
    rw [loopStep_spO2_finger sC2 iC2 hp, if_pos ⟨h0, by decide⟩]
  exact ⟨hlow, hp, h98, by rw [h98]; norm_num⟩

theorem c2_witness :
    calculateSpO2 iC2.irValue iC2.redValue = 0 ∧
    (loopStep sC2 iC2).spO2 = if 50000 < iC2.irValue then 98 else 0 :=
  c2_low_value_sentinel sC2 iC2 (by decide) (by norm_num [iC2])

/-- A falling transition while rising, through the noise floor: the
condition of the beat-edge branch of loop() given the current state
(main.cpp lines 299-307).  The rising-set branch cannot have fired on
the same tick because it requires a positive delta. -/
def beatEdge (s : CoreState) (ir : Int) : Prop :=
  80 < |ir - s.lastIR| ∧ ir - s.lastIR < 0 ∧
    0 ≤ s.lastIR - s.lastLastIR ∧ s.wasRising = true

instance beatEdgeDecidable (s : CoreState) (ir : Int) : Decidable (beatEdge s ir) := by
  unfold beatEdge
  infer_instance

theorem edge_keeps_w1 (s : CoreState) (ir : Int) (he : beatEdge s ir) :
    (if 0 < ir - s.lastIR ∧ s.lastIR - s.lastLastIR ≤ 0 ∧ s.wasRising = false then true
     else s.wasRising) = true := by
  rw [if_neg]
  · exact he.2.2.2
  · rintro ⟨h1, -, -⟩
    have h2 := he.2.1
    omega

/-- On a beat edge with at most 300 ms since the last beat, the beat
block only clears the rising flag and shifts the IR window: history
and lastBeatTime are untouched. -/
theorem beatUpdate_edge_short (s : CoreState) (ir : Int) (now : Nat)
    (he : beatEdge s ir) (hshort : now - s.lastBeatTime ≤ 300) :
    beatUpdate s ir now =
      { s with wasRising := false, lastLastIR := s.lastIR, lastIR := ir } := by
  have hn := he.1
  have hd := he.2.1
  have hld := he.2.2.1
  simp only [beatUpdate]
  rw [if_pos hn, if_pos ⟨hd, hld, edge_keeps_w1 s ir he⟩, if_neg (by omega)]

/-- On a beat edge with more than 300 ms elapsed, lastBeatTime is
advanced to now whether or not the interval is accepted. -/
theorem beatUpdate_edge_long_lastBeatTime (s : CoreState) (ir : Int) (now : Nat)
    (he : beatEdge s ir) (hlong : 300 < now - s.lastBeatTime) :
    (beatUpdate s ir now).lastBeatTime = now := by
  have hn := he.1
  have hd := he.2.1
  have hld := he.2.2.1
  simp only [beatUpdate]
  rw [if_pos hn, if_pos ⟨hd, hld, edge_keeps_w1 s ir he⟩, if_pos hlong]

/-- Claim C1 (amended): on a beat edge with presence committed, a
beat arriving at most MIN_BEAT_INTERVAL = 300 ms after the last one
is dropped without inserting into the history AND without advancing
lastBeatTime; lastBeatTime advances to now exactly when more than
300 ms have elapsed (then regardless of acceptance). -/
theorem c1_short_edge_keeps_lastBeatTime (s : CoreState) (i : SensorInput)
    (hp : (presenceUpdate s i.irValue i.now).fingerDetected = true)
    (he : beatEdge s i.irValue) :
    (i.now - s.lastBeatTime ≤ 300 →
        (loopStep s i).lastBeatTime = s.lastBeatTime ∧
        (loopStep s i).beatSamples = s.beatSamples ∧
        (loopStep s i).beatArray = s.beatArray) ∧
    (300 < i.now - s.lastBeatTime → (loopStep s i).lastBeatTime = i.now) := by
  have hpre := presenceUpdate_preserves s i.irValue i.now
  have he1 : beatEdge (presenceUpdate s i.irValue i.now) i.irValue := by
    unfold beatEdge
    rw [hpre.1, hpre.2.1, hpre.2.2.1]
    exact he
  rw [loopStep_finger s i hp]
  constructor
  · intro hshort
    have hb := beatUpdate_edge_short _ _ _ he1 (by rw [hpre.2.2.2.1]; exact hshort)
    refine ⟨?_, ?_, ?_⟩
    · rw [(mpuUpdate_preserves _ _).2.2.2.1, (spO2Update_preserves _ _ _).2.2.1, hb,
        hpre.2.2.2.1]
    · rw [(mpuUpdate_preserves _ _).2.2.2.2.2.2.1, (spO2Update_preserves _ _ _).2.2.2.2.2,
        hb, hpre.2.2.2.2.2.2.1]
    · rw [(mpuUpdate_preserves _ _).2.2.2.2.1, (spO2Update_preserves _ _ _).2.2.2.1, hb,
        hpre.2.2.2.2.1]
  · intro hlong
    rw [(mpuUpdate_preserves _ _).2.2.2.1, (spO2Update_preserves _ _ _).2.2.1,
      beatUpdate_edge_long_lastBeatTime _ _ _ he1 (by rw [hpre.2.2.2.1]; exact hlong)]

def sC1 : CoreState :=
  { initState with fingerDetected := true, lastFingerState := true,
                   fingerStateTime := 1000, lastBeatTime := 1000,
                   lastIR := 40000, lastLastIR := 40000, wasRising := true }

def iC1 : SensorInput :=
  { irValue := 39900, redValue := 0, accelMagnitude := 0, mpuOk := false, now := 1100 }

/-- Claim C1 as stated is false on the code: at a beat edge with
presence committed, occurring 100 ms ( < MIN_BEAT_INTERVAL) after the
last beat, the beat is dropped and lastBeatTime stays 1000 instead of
advancing to the current time 1100, because the assignment
lastBeatTime = currentTime sits inside the (interval > 300) test. -/
theorem c1_counterexample :
    beatEdge sC1 iC1.irValue ∧
    (presenceUpdate sC1 iC1.irValue iC1.now).fingerDetected = true ∧
    iC1.now - sC1.lastBeatTime ≤ 300 ∧
    (loopStep sC1 iC1).lastBeatTime = 1000 ∧
    (loopStep sC1 iC1).lastBeatTime ≠ iC1.now ∧
    (loopStep sC1 iC1).beatSamples = sC1.beatSamples := by decide

theorem c1_witness :
    (loopStep sC1 iC1).lastBeatTime = sC1.lastBeatTime ∧
    (loopStep sC1 iC1).beatSamples = sC1.beatSamples ∧
    (loopStep sC1 iC1).beatArray = sC1.beatArray :=
  (c1_short_edge_keeps_lastBeatTime sC1 iC1 (by decide) (by decide)).1 (by decide)

/-- On a beat edge with the interval in the accepted range, the beat
block performs the full insertion. -/
theorem beatUpdate_edge_accept (s : CoreState) (ir : Int) (now : Nat)
    (he : beatEdge s ir) (h1 : 300 < now - s.lastBeatTime)
    (h2 : now - s.lastBeatTime < 1500) :
    beatUpdate s ir now = acceptBeat s ir now := by
  have hn := he.1
  have hd := he.2.1
  have hld := he.2.2.1
  simp only [beatUpdate, acceptBeat]
  rw [if_pos hn, if_pos ⟨hd, hld, edge_keeps_w1 s ir he⟩, if_pos h1, if_pos ⟨h1, h2⟩]

/-- A tick that accepts a beat: presence committed, a falling edge
while rising through the noise floor, and an inter-beat interval
strictly between 300 and 1500 ms. -/
def beatAccepted (s : CoreState) (i : SensorInput) : Prop :=
  (presenceUpdate s i.irValue i.now).fingerDetected = true ∧
  beatEdge s i.irValue ∧
  300 < i.now - s.lastBeatTime ∧ i.now - s.lastBeatTime < 1500

instance beatAcceptedDecidable (s : CoreState) (i : SensorInput) :
    Decidable (beatAccepted s i) := by
  unfold beatAccepted
  infer_instance

/-- Claim C7: a tick that accepts a beat writes 60000 / interval into
the buffer slot at the cursor, and that value lies in [40, 200]; a
tick whose interval is outside the open range (300, 1500) never
inserts: the buffer and its count are unchanged (or cleared to zero
by the no-finger branch, which is not an insertion). -/
theorem c7_bpm_range (s : CoreState) (i : SensorInput) :
    (beatAccepted s i →
        (loopStep s i).beatArray s.beatIndex = 60000 / (i.now - s.lastBeatTime) ∧
        40 ≤ (loopStep s i).beatArray s.beatIndex ∧
        (loopStep s i).beatArray s.beatIndex ≤ 200) ∧
    (¬(300 < i.now - s.lastBeatTime ∧ i.now - s.lastBeatTime < 1500) →
        ((loopStep s i).beatArray = s.beatArray ∧
         (loopStep s i).beatSamples = s.beatSamples) ∨
        ((loopStep s i).beatArray = (fun _ => 0) ∧
         (loopStep s i).beatSamples = 0)) := by
  have hpre := presenceUpdate_preserves s i.irValue i.now
  have harr := hpre.2.2.2.2.1
  have hidx := hpre.2.2.2.2.2.1
  have hsam := hpre.2.2.2.2.2.2.1
  have hlbt := hpre.2.2.2.1
  constructor
  · rintro ⟨hp, he, h1, h2⟩
    have he1 : beatEdge (presenceUpdate s i.irValue i.now) i.irValue := by
      unfold beatEdge
      rw [hpre.1, hpre.2.1, hpre.2.2.1]
      exact he
    have hb := beatUpdate_edge_accept _ _ _ he1 (by rw [hlbt]; exact h1) (by rw [hlbt]; exact h2)
    have hgoal : (loopStep s i).beatArray s.beatIndex = 60000 / (i.now - s.lastBeatTime) := by
      rw [loopStep_finger s i hp, (mpuUpdate_preserves _ _).2.2.2.2.1,
        (spO2Update_preserves _ _ _).2.2.2.1, hb]
      simp only [acceptBeat]
      rw [hlbt, harr, hidx]
      simp [Function.update_same]
    refine ⟨hgoal, ?_, ?_⟩
    · rw [hgoal]
      rw [Nat.le_div_iff_mul_le (by omega)]
      omega
    · rw [hgoal]
      calc 60000 / (i.now - s.lastBeatTime) ≤ 60000 / 301 :=
            Nat.div_le_div_left (by omega) (by norm_num)
        _ ≤ 200 := by norm_num
  · intro hrange
    by_cases hp : (presenceUpdate s i.irValue i.now).fingerDetected = true
    · left
      rw [loopStep_finger s i hp, (mpuUpdate_preserves _ _).2.2.2.2.1,
        (mpuUpdate_preserves _ _).2.2.2.2.2.2.1, (spO2Update_preserves _ _ _).2.2.2.1,
        (spO2Update_preserves _ _ _).2.2.2.2.2]
      rcases beatUpdate_cases (presenceUpdate s i.irValue i.now) i.irValue i.now with
        ⟨w, hbc⟩ | hbc | ⟨hin, hbc⟩
      · rw [hbc]
        exact ⟨harr, hsam⟩
      · rw [hbc]
        exact ⟨harr, hsam⟩
      · rw [hlbt] at hin
        exact absurd hin hrange
    · right
      rw [loopStep_nofinger s i (Bool.not_eq_true _ ▸ hp), (mpuUpdate_preserves _ _).2.2.2.2.1,
        (mpuUpdate_preserves _ _).2.2.2.2.2.2.1]
      exact ⟨(clearNoFinger_fields _).2.2.2.1, (clearNoFinger_fields _).2.2.1⟩

def sC7 : CoreState :=
  { initState with fingerDetected := true, lastFingerState := true,
                   lastIR := 40000, lastLastIR := 39000, wasRising := true }

def iC7 : SensorInput :=
  { irValue := 39000, redValue := 0, accelMagnitude := 0, mpuOk := false, now := 400 }

theorem c7_witness :
    (loopStep sC7 iC7).beatArray sC7.beatIndex = 150 ∧
    40 ≤ (loopStep sC7 iC7).beatArray sC7.beatIndex ∧
    (loopStep sC7 iC7).beatArray sC7.beatIndex ≤ 200 :=
  (c7_bpm_range sC7 iC7).1 (by decide)

/-- The beat block either leaves buffer, count and average untouched,
or it performs an insertion: the count becomes min(count+1, 5) and the
average is recomputed over the first count slots of the new buffer. -/
theorem beatUpdate_beat_fields (s : CoreState) (ir : Int) (now : Nat) :
    ((beatUpdate s ir now).beatArray = s.beatArray ∧
     (beatUpdate s ir now).beatSamples = s.beatSamples ∧
     (beatUpdate s ir now).heartRate = s.heartRate) ∨
    ((beatUpdate s ir now).beatSamples = min (s.beatSamples + 1) 5 ∧
     (beatUpdate s ir now).heartRate =
       sumBeats (beatUpdate s ir now).beatArray (beatUpdate s ir now).beatSamples /
         (beatUpdate s ir now).beatSamples) := by
  rcases beatUpdate_cases s ir now with ⟨w, h⟩ | h | ⟨-, h⟩
  · rw [h]
    exact Or.inl ⟨rfl, rfl, rfl⟩
  · rw [h]
    exact Or.inl ⟨rfl, rfl, rfl⟩
  · rw [h]
    exact Or.inr ⟨rfl, rfl⟩

theorem spO2Update_step (s : CoreState) (ir red : Int) :
    (spO2Update s ir red).stepCounter = s.stepCounter ∧
    (spO2Update s ir red).stepCount = s.stepCount :=
  ⟨rfl, rfl⟩

/-- The heart-rate invariant: the published heartRate is 0 when the
buffer is empty and otherwise equals the integer-division mean of the
first beatSamples slots. -/
def hrInvariant (s : CoreState) : Prop :=
  (s.beatSamples = 0 → s.heartRate = 0) ∧
  (0 < s.beatSamples →
    s.heartRate = sumBeats s.beatArray s.beatSamples / s.beatSamples)

instance hrInvariantDecidable (s : CoreState) : Decidable (hrInvariant s) := by
  unfold hrInvariant
  infer_instance

/-- Claim C5: the invariant holds at startup, is preserved by every
tick, and a tick whose committed presence is false reports heart rate
0 (which is also forced whenever the count is 0, by the invariant). -/
theorem c5_heart_rate_mean :
    hrInvariant initState ∧
    (∀ (s : CoreState) (i : SensorInput), hrInvariant s → hrInvariant (loopStep s i)) ∧
    (∀ (s : CoreState) (i : SensorInput),
        (loopStep s i).fingerDetected = false → (loopStep s i).heartRate = 0) := by
  refine ⟨by decide, ?_, ?_⟩
  · intro s i hinv
    by_cases hp : (presenceUpdate s i.irValue i.now).fingerDetected = true
    · have hpre := presenceUpdate_preserves s i.irValue i.now
      have hA : (loopStep s i).beatArray =
          (beatUpdate (presenceUpdate s i.irValue i.now) i.irValue i.now).beatArray := by
        rw [loopStep_finger s i hp, (mpuUpdate_preserves _ _).2.2.2.2.1,
          (spO2Update_preserves _ _ _).2.2.2.1]
      have hS : (loopStep s i).beatSamples =
          (beatUpdate (presenceUpdate s i.irValue i.now) i.irValue i.now).beatSamples := by
        rw [loopStep_finger s i hp, (mpuUpdate_preserves _ _).2.2.2.2.2.2.1,
          (spO2Update_preserves _ _ _).2.2.2.2.2]
      have hH : (loopStep s i).heartRate =
          (beatUpdate (presenceUpdate s i.irValue i.now) i.irValue i.now).heartRate := by
        rw [loopStep_finger s i hp, (mpuUpdate_preserves _ _).2.1,
          (spO2Update_preserves _ _ _).1]
      rcases beatUpdate_beat_fields (presenceUpdate s i.irValue i.now) i.irValue i.now with
        ⟨ha, hs, hh⟩ | ⟨hs, hh⟩
      · constructor
        · intro h0
          rw [hH, hh, hpre.2.2.2.2.2.2.2.1]
          apply hinv.1
          rw [hS, hs, hpre.2.2.2.2.2.2.1] at h0
          exact h0
        · intro hpos
          rw [hS, hs, hpre.2.2.2.2.2.2.1] at hpos ⊢
          rw [hH, hh, hpre.2.2.2.2.2.2.2.1, hA, ha, hpre.2.2.2.2.1]
          exact hinv.2 hpos
      · constructor
        · intro h0
          rw [hS, hs] at h0
          omega
        · intro _
          rw [hH, hh, hA, hS]
    · have hp0 : (presenceUpdate s i.irValue i.now).fingerDetected = false :=
        Bool.not_eq_true _ ▸ hp
      have hcl := loopStep_nofinger s i hp0
      constructor
      · intro _
        rw [hcl, (mpuUpdate_preserves _ _).2.1, (clearNoFinger_fields _).1]
      · intro hpos
        rw [hcl, (mpuUpdate_preserves _ _).2.2.2.2.2.2.1, (clearNoFinger_fields _).2.2.1]
          at hpos
        omega
  · intro s i hp
    rw [loopStep_fingerDetected] at hp
    rw [loopStep_nofinger s i hp, (mpuUpdate_preserves _ _).2.1,
      (clearNoFinger_fields _).1]

def iC5 : SensorInput :=
  { irValue := 0, redValue := 0, accelMagnitude := 0, mpuOk := false, now := 0 }

theorem c5_witness : hrInvariant (loopStep initState iC5) :=
  c5_heart_rate_mean.2.1 initState iC5 (by decide)

theorem loopStep_samples_le (s : CoreState) (i : SensorInput)
    (h : s.beatSamples ≤ 5) : (loopStep s i).beatSamples ≤ 5 := by
  by_cases hp : (presenceUpdate s i.irValue i.now).fingerDetected = true
  · have hpre := presenceUpdate_preserves s i.irValue i.now
    have hS : (loopStep s i).beatSamples =
        (beatUpdate (presenceUpdate s i.irValue i.now) i.irValue i.now).beatSamples := by
      rw [loopStep_finger s i hp, (mpuUpdate_preserves _ _).2.2.2.2.2.2.1,
        (spO2Update_preserves _ _ _).2.2.2.2.2]
    rcases beatUpdate_beat_fields (presenceUpdate s i.irValue i.now) i.irValue i.now with
      ⟨-, hs, -⟩ | ⟨hs, -⟩
    · rw [hS, hs, hpre.2.2.2.2.2.2.1]
      exact h
    · rw [hS, hs]
      omega
  · rw [loopStep_nofinger s i (Bool.not_eq_true _ ▸ hp),
      (mpuUpdate_preserves _ _).2.2.2.2.2.2.1, (clearNoFinger_fields _).2.2.1]
    omega

theorem runLoop_samples_le :
    ∀ (l : List SensorInput) (s : CoreState),
      s.beatSamples ≤ 5 → (runLoop s l).beatSamples ≤ 5
  | [], _, h => h
  | i :: l, s, h => runLoop_samples_le l (loopStep s i) (loopStep_samples_le s i h)

/-- Eleven ticks from startup: presence warms up and commits at
t = 200 ms, then five beats are accepted at t = 400, 900, 1500, 2250,
3250, with BPM values 150, 120, 100, 80, 60 filling the five slots. -/
def traceBeats5 : List SensorInput :=
  [⟨40000, 0, 0, false, 0⟩, ⟨40000, 0, 0, false, 200⟩, ⟨39000, 0, 0, false, 400⟩,
   ⟨40000, 0, 0, false, 600⟩, ⟨39000, 0, 0, false, 900⟩,
   ⟨40000, 0, 0, false, 1100⟩, ⟨39000, 0, 0, false, 1500⟩,
   ⟨40000, 0, 0, false, 1700⟩, ⟨39000, 0, 0, false, 2250⟩,
   ⟨40000, 0, 0, false, 2450⟩, ⟨39000, 0, 0, false, 3250⟩]

/-- Two more ticks: a sixth beat is accepted at t = 4450 with BPM 50,
overwriting the oldest slot (slot 0, which held 150). -/
def traceBeats6 : List SensorInput :=
  traceBeats5 ++ [⟨40000, 0, 0, false, 3450⟩, ⟨39000, 0, 0, false, 4450⟩]

/-- Claim C6: the count of valid entries never exceeds the capacity 5
on any input sequence, and on a concrete run the sixth accepted beat
overwrites the oldest slot: after five accepted beats slot 0 holds
150, after the sixth it holds 50 while the count stays 5. -/
theorem c6_beat_history_bound :
    (∀ l : List SensorInput, (runLoop initState l).beatSamples ≤ 5) ∧
    (runLoop initState traceBeats5).beatSamples = 5 ∧
    (runLoop initState traceBeats5).beatArray 0 = 150 ∧
    (runLoop initState traceBeats6).beatSamples = 5 ∧
    (runLoop initState traceBeats6).beatArray 0 = 50 := by
  refine ⟨fun l => runLoop_samples_le l initState (by decide), ?_, ?_, ?_, ?_⟩ <;> decide

theorem mpuUpdate_stepCounter (s : CoreState) (i : SensorInput) :
    s.stepCounter ≤ (mpuUpdate s i).stepCounter := by
  simp only [mpuUpdate, detectStep]
  split
  · split <;> dsimp only <;> omega
  · dsimp only
    omega

theorem mpuUpdate_step (s : CoreState) (i : SensorInput)
    (h : s.stepCount ≤ s.stepCounter) :
    s.stepCount ≤ (mpuUpdate s i).stepCount ∧
    (mpuUpdate s i).stepCount ≤ (mpuUpdate s i).stepCounter := by
  simp only [mpuUpdate, detectStep]
  split
  · split <;> dsimp only <;> omega
  · dsimp only
    omega

/-- loop() modifies the step fields only through the inertial block:
the state handed to mpuUpdate carries the original step counters. -/
theorem loopStep_pre_mpu (s : CoreState) (i : SensorInput) :
    ∃ s2, loopStep s i = mpuUpdate s2 i ∧
      s2.stepCounter = s.stepCounter ∧ s2.stepCount = s.stepCount := by
  by_cases hp : (presenceUpdate s i.irValue i.now).fingerDetected = true
  · refine ⟨_, loopStep_finger s i hp, ?_, ?_⟩
    · rw [(spO2Update_step _ _ _).1, (beatUpdate_preserves _ _ _).2.2.2.1,
        (presenceUpdate_preserves s i.irValue i.now).2.2.2.2.2.2.2.2.2.1]
    · rw [(spO2Update_step _ _ _).2, (beatUpdate_preserves _ _ _).2.2.2.2.1,
        (presenceUpdate_preserves s i.irValue i.now).2.2.2.2.2.2.2.2.2.2]
  · refine ⟨_, loopStep_nofinger s i (Bool.not_eq_true _ ▸ hp), ?_, ?_⟩
    · rw [(clearNoFinger_fields _).2.2.2.2.2.2.1,
        (presenceUpdate_preserves s i.irValue i.now).2.2.2.2.2.2.2.2.2.1]
    · rw [(clearNoFinger_fields _).2.2.2.2.2.2.2,
        (presenceUpdate_preserves s i.irValue i.now).2.2.2.2.2.2.2.2.2.2]

theorem loopStep_stepCounter_mono (s : CoreState) (i : SensorInput) :
    s.stepCounter ≤ (loopStep s i).stepCounter := by
  obtain ⟨s2, heq, hc, -⟩ := loopStep_pre_mpu s i
  rw [heq, ← hc]
  exact mpuUpdate_stepCounter s2 i

theorem loopStep_step_all (s : CoreState) (i : SensorInput)
    (h : s.stepCount ≤ s.stepCounter) :
    s.stepCount ≤ (loopStep s i).stepCount ∧
    (loopStep s i).stepCount ≤ (loopStep s i).stepCounter := by
  obtain ⟨s2, heq, hc, hn⟩ := loopStep_pre_mpu s i
  rw [heq]
  have hm := mpuUpdate_step s2 i (by rw [hc, hn]; exact h)
  exact ⟨hn ▸ hm.1, hm.2⟩

theorem runLoop_step_inv :
    ∀ (l : List SensorInput) (s : CoreState),
      s.stepCount ≤ s.stepCounter →
        (runLoop s l).stepCount ≤ (runLoop s l).stepCounter
  | [], _, h => h
  | i :: l, s, h => runLoop_step_inv l (loopStep s i) (loopStep_step_all s i h).2

/-- Claim C8: the internal step counter never decreases across any
single tick from any state, and along any run from startup both the
counter and the published stepCount are non-decreasing from one tick
to the next. -/
theorem c8_step_monotone :
    (∀ (s : CoreState) (i : SensorInput), s.stepCounter ≤ (loopStep s i).stepCounter) ∧
    (∀ (l : List SensorInput) (i : SensorInput),
        (runLoop initState l).stepCounter ≤ (runLoop initState (l ++ [i])).stepCounter ∧
        (runLoop initState l).stepCount ≤ (runLoop initState (l ++ [i])).stepCount) := by
  refine ⟨loopStep_stepCounter_mono, ?_⟩
  intro l i
  have hr : runLoop initState (l ++ [i]) = loopStep (runLoop initState l) i := by
    simp [runLoop, List.foldl_append]
  have hinv : (runLoop initState l).stepCount ≤ (runLoop initState l).stepCounter :=
    runLoop_step_inv l initState (by decide)
  rw [hr]
  exact ⟨loopStep_stepCounter_mono _ i, (loopStep_step_all _ i hinv).1⟩

/-- Guarded rational division: none exactly when the divisor is 0. -/
def divQ (a b : ℚ) : Option ℚ :=
  if b = 0 then none else some (a / b)

/-- Guarded natural division: none exactly when the divisor is 0. -/
def divN (a b : Nat) : Option Nat :=
  if b = 0 then none else some (a / b)

/-- calculateSpO2 with its one division checked: the ratio red/ir is
taken through divQ, so a zero infrared value inside the division
branch would surface as none. -/
def calculateSpO2Checked (ir red : Int) : Option ℚ :=
  if ir < 20000 ∨ red < 5000 then some 0
  else
    (divQ (red : ℚ) (ir : ℚ)).map fun r =>
      let v : ℚ := 104 - 17 * r
      let v1 : ℚ := if v < 70 then 0 else v
      if 100 < v1 then 100 else v1

theorem calculateSpO2Checked_eq (ir red : Int) :
    calculateSpO2Checked ir red = some (calculateSpO2 ir red) := by
  simp only [calculateSpO2Checked, calculateSpO2]
  by_cases hfl : ir < 20000 ∨ red < 5000
  · rw [if_pos hfl, if_pos hfl]
  · rw [if_neg hfl, if_neg hfl]
    have hir0 : ir ≠ 0 := by omega
    have hir : ((ir : ℚ)) ≠ 0 := Int.cast_ne_zero.mpr hir0
    simp only [divQ]
    rw [if_neg hir]
    rfl

/-- The beat block with its two divisions checked: 60000/interval and
sum/count are taken through divN. -/
def beatUpdateChecked (s : CoreState) (ir : Int) (now : Nat) : Option CoreState :=
  let delta : Int := ir - s.lastIR
  let lastDelta : Int := s.lastIR - s.lastLastIR
  let s1 :=
    if 80 < |delta| then
      let w1 : Bool :=
        if 0 < delta ∧ lastDelta ≤ 0 ∧ s.wasRising = false then true else s.wasRising
      if delta < 0 ∧ 0 ≤ lastDelta ∧ w1 = true then
        if 300 < now - s.lastBeatTime then
          let beatInterval : Nat := now - s.lastBeatTime
          let s3 :=
            if 300 < beatInterval ∧ beatInterval < 1500 then
              (divN 60000 beatInterval).bind fun bpm =>
                let arr : Fin 5 → Nat := Function.update s.beatArray s.beatIndex bpm
                let samples : Nat := min (s.beatSamples + 1) 5
                (divN (sumBeats arr samples) samples).map fun hr =>
                  { s with wasRising := false
                           beatArray := arr
                           beatIndex := s.beatIndex + 1
                           beatSamples := samples
                           heartRate := hr }
            else some { s with wasRising := false }
          s3.map fun t => { t with lastBeatTime := now }
        else some { s with wasRising := false }
      else some { s with wasRising := w1 }
    else some s
  s1.map fun t => { t with lastLastIR := s.lastIR, lastIR := ir }

theorem beatUpdateChecked_eq (s : CoreState) (ir : Int) (now : Nat) :
    beatUpdateChecked s ir now = some (beatUpdate s ir now) := by
  simp only [beatUpdateChecked, beatUpdate]
  by_cases hnoise : 80 < |ir - s.lastIR|
  case neg =>
    rw [if_neg hnoise, if_neg hnoise]
    rfl
  rw [if_pos hnoise, if_pos hnoise]
  by_cases hedge : ir - s.lastIR < 0 ∧ 0 ≤ s.lastIR - s.lastLastIR ∧
      (if 0 < ir - s.lastIR ∧ s.lastIR - s.lastLastIR ≤ 0 ∧ s.wasRising = false then true
       else s.wasRising) = true
  case neg =>
    rw [if_neg hedge, if_neg hedge]
    rfl
  rw [if_pos hedge, if_pos hedge]
  by_cases houter : 300 < now - s.lastBeatTime
  case neg =>
    rw [if_neg houter, if_neg houter]
    rfl
  rw [if_pos houter, if_pos houter]
  by_cases hin : 300 < now - s.lastBeatTime ∧ now - s.lastBeatTime < 1500
  case neg =>
    rw [if_neg hin, if_neg hin]
    rfl
  rw [if_pos hin, if_pos hin]
  simp only [divN]
  rw [if_neg (by omega : ¬ (now - s.lastBeatTime = 0))]
  dsimp only [Option.bind]
  rw [if_neg (by omega : ¬ (min (s.beatSamples + 1) 5 = 0))]
  rfl

/-- The SpO2 block through the checked calculateSpO2. -/
def spO2UpdateChecked (s : CoreState) (ir red : Int) : Option CoreState :=
  (calculateSpO2Checked ir red).map fun v =>
    let v2 : ℚ := if v = 0 ∧ 50000 < ir then 98 else v
    { s with spO2 := v2 }

theorem spO2UpdateChecked_eq (s : CoreState) (ir red : Int) :
    spO2UpdateChecked s ir red = some (spO2Update s ir red) := by
  simp only [spO2UpdateChecked, spO2Update, calculateSpO2Checked_eq]
  rfl

/-- One full tick with every division of the source checked for a
zero divisor; the blocks that contain no division are shared. -/
def loopStepChecked (s : CoreState) (i : SensorInput) : Option CoreState :=
  let s1 := presenceUpdate s i.irValue i.now
  if s1.fingerDetected then
    (beatUpdateChecked s1 i.irValue i.now).bind fun s2 =>
      (spO2UpdateChecked s2 i.irValue i.redValue).map fun s3 => mpuUpdate s3 i
  else some (mpuUpdate (clearNoFinger s1) i)

/-- Claim C9: every tick is defined on every input and state: the
tick with checked divisions never returns none, because each division
is guarded (the intensity floors before red/ir, the interval > 300
test before 60000/interval, and count = min(count+1,5) ≥ 1 before
sum/count); in particular the all-zero default sample is tolerated. -/
theorem c9_no_division_by_zero (s : CoreState) (i : SensorInput) :
    loopStepChecked s i = some (loopStep s i) := by
  simp only [loopStepChecked, loopStep]
  split
  · simp [beatUpdateChecked_eq, spO2UpdateChecked_eq]
  · rfl

theorem presenceUpdate_inv (s : CoreState) (ir : Int) (now : Nat)
    (h : s.fingerDetected = s.lastFingerState) :
    (presenceUpdate s ir now).fingerDetected = (presenceUpdate s ir now).lastFingerState := by
  rcases presenceUpdate_cases s ir now with hc | hc | hc <;> rw [hc] <;> exact h

theorem runPresence_inv :
    ∀ (l : List (Int × Nat)) (s : CoreState),
      s.fingerDetected = s.lastFingerState →
        (runPresence s l).fingerDetected = (runPresence s l).lastFingerState
  | [], _, h => h
  | p :: l, s, h => runPresence_inv l _ (presenceUpdate_inv s p.1 p.2 h)

theorem presenceUpdate_fst (s : CoreState) (ir : Int) (now : Nat) :
    (presenceUpdate s ir now).fingerStateTime = s.fingerStateTime ∨
    (presenceUpdate s ir now).fingerStateTime = now := by
  rcases presenceUpdate_cases s ir now with h | h | h <;> rw [h]
  · exact Or.inr rfl
  · exact Or.inl rfl
  · exact Or.inr rfl

theorem runPresence_fst_ge :
    ∀ (l : List (Int × Nat)) (s : CoreState) (t : Nat),
      t ≤ s.fingerStateTime → (∀ p ∈ l, t ≤ p.2) →
        t ≤ (runPresence s l).fingerStateTime
  | [], _, _, h, _ => h
  | p :: l, s, t, h, hl =>
      runPresence_fst_ge l (presenceUpdate s p.1 p.2) t
        (by
          rcases presenceUpdate_fst s p.1 p.2 with hf | hf <;> rw [hf]
          · exact h
          · exact hl p (List.mem_cons_self p l))
        (fun q hq => hl q (List.mem_cons_of_mem p hq))

/-- When the raw reading agrees with lastFingerState, the presence
block only resets the settle timer. -/
theorem presenceUpdate_agree (s : CoreState) (ir : Int) (now : Nat)
    (h : decide (30000 < ir) = s.lastFingerState) :
    presenceUpdate s ir now = { s with fingerStateTime := now } := by
  simp only [presenceUpdate]
  rw [if_neg (fun hne => hne h)]

/-- Within 100 ms of the recorded settle timer, the committed state
cannot change. -/
theorem presenceUpdate_no_commit (s : CoreState) (ir : Int) (now : Nat)
    (h : now - s.fingerStateTime ≤ 100) :
    (presenceUpdate s ir now).fingerDetected = s.fingerDetected := by
  simp only [presenceUpdate]
  by_cases h1 : decide (30000 < ir) ≠ s.lastFingerState
  · rw [if_pos h1, if_neg (by omega)]
  · rw [if_neg h1]

/-- Claim C3 (amended): a committed presence change requires the raw
reading to disagree with the committed state AND more than
SETTLE_DURATION = 100 ms to have elapsed since the settle timer,
which marks the most recent call whose raw reading agreed with the
committed state; consequently, any later call within 100 ms of such
an agreeing call cannot commit a transition.  (The code resets the
timer on agreement rather than on a raw change, so with sparsely
spaced calls a commit can coincide with the call that first observes
the new raw value.) -/
theorem c3_settle_hysteresis :
    (∀ (s : CoreState) (ir : Int) (now : Nat),
        (presenceUpdate s ir now).fingerDetected ≠ s.fingerDetected →
          decide (30000 < ir) ≠ s.lastFingerState ∧ 100 < now - s.fingerStateTime) ∧
    (∀ (s : CoreState) (l1 l2 : List (Int × Nat)) (ira irc : Int) (ta tc : Nat),
        s.fingerDetected = s.lastFingerState →
        decide (30000 < ira) = (runPresence s l1).fingerDetected →
        (∀ p ∈ l2, ta ≤ p.2) → tc - ta ≤ 100 →
        (presenceUpdate (runPresence s (l1 ++ (ira, ta) :: l2)) irc tc).fingerDetected
          = (runPresence s (l1 ++ (ira, ta) :: l2)).fingerDetected) := by
  constructor
  · intro s ir now hch
    by_cases h1 : decide (30000 < ir) ≠ s.lastFingerState
    · by_cases h2 : 100 < now - s.fingerStateTime
      · exact ⟨h1, h2⟩
      · exfalso
        simp only [presenceUpdate] at hch
        rw [if_pos h1, if_neg h2] at hch
        exact hch rfl
    · exfalso
      simp only [presenceUpdate] at hch
      rw [if_neg h1] at hch
      exact hch rfl
  · intro s l1 l2 ira irc ta tc hinv hagree hl2 hwin
    have hsplit : runPresence s (l1 ++ (ira, ta) :: l2)
        = runPresence (presenceUpdate (runPresence s l1) ira ta) l2 := by
      simp [runPresence, List.foldl_append]
    have hinv1 : (runPresence s l1).fingerDetected = (runPresence s l1).lastFingerState :=
      runPresence_inv l1 s hinv
    have hstep : presenceUpdate (runPresence s l1) ira ta
        = { runPresence s l1 with fingerStateTime := ta } :=
      presenceUpdate_agree _ _ _ (hagree.trans hinv1)
    have hfst : ta ≤ (runPresence s (l1 ++ (ira, ta) :: l2)).fingerStateTime := by
      rw [hsplit, hstep]
      exact runPresence_fst_ge l2 _ ta (le_refl ta) hl2
    apply presenceUpdate_no_commit
    omega

/-- Claim C3 as stated is false on the code: from startup, a call
with infrared 0 at t = 0 and a call with infrared 40000 at t = 150
commit presence at the very call that first observes the raw change
(0 ms after it, not 100 ms); a third call at t = 160 shows that a raw
toggle lasting under 100 ms has nevertheless produced a committed
transition that persists. -/
theorem c3_counterexample :
    decide ((30000 : Int) < 0) = false ∧
    decide ((30000 : Int) < 40000) = true ∧
    (runPresence initState [((0 : Int), (0 : Nat))]).fingerDetected = false ∧
    (runPresence initState [((0 : Int), (0 : Nat)),
        ((40000 : Int), (150 : Nat))]).fingerDetected = true ∧
    (runPresence initState [((0 : Int), (0 : Nat)), ((40000 : Int), (150 : Nat)),
        ((0 : Int), (160 : Nat))]).fingerDetected = true := by decide

theorem c3_witness :
    (presenceUpdate
        (runPresence initState [((0 : Int), (0 : Nat)), ((40000 : Int), (50 : Nat))])
        40000 100).fingerDetected
      = (runPresence initState
          [((0 : Int), (0 : Nat)), ((40000 : Int), (50 : Nat))]).fingerDetected :=
  c3_settle_hysteresis.2 initState [] [((40000 : Int), (50 : Nat))] 0 40000 0 100
    rfl (by decide) (by decide) (by decide)
